import Mathlib

/-!
Shallow embedding of the prostor backend's file/folder storage subsystem:
`FileService` (packages/backend/src/services/file.service.ts),
`StorageService` (packages/backend/src/services/storage.service.ts) and the
`FileController` request flows that wire them together.

Conventions of the embedding:
* JavaScript `Date` timestamps are `Nat` (milliseconds since the epoch).
* Byte buffers are `List Nat`; only their length matters to the claims.
* The module-level mutable arrays `files`, `folders`, `shareLinks` and the
  record `userStorageUsage` become explicit state threaded through functions.
* `userStorageUsage` is a total function `String → Int` with default 0,
  mirroring the `userStorageUsage[userId] || 0` read and the init-to-0 write.
* Thrown JS exceptions become `Option`/`Except` failure results; the
  controller `catch` blocks become explicit error branches that keep the
  mutations already performed before the throw.
* Filesystem paths are segment lists; `path.join` normalization (dropping
  empty and `.` segments and resolving `..` against an absolute base) is
  modelled by `normalizeSegs`.
* Network availability of the object-storage backend (`s3`/`r2`) is a
  boolean parameter `avail`: `S3Client.send` throws when it is `false`.
  The local backend's filesystem writes are modelled as always succeeding;
  `unlink` fails exactly when the path is absent (ENOENT).
* The float field `usedPercentage` of the usage report is omitted; no claim
  mentions it.
-/

namespace Prostor

/-- File metadata record, from the `File` interface of file.service.ts. -/
structure File where
  id : String
  userId : String
  name : String
  size : Nat
  mimeType : String
  key : String
  folderId : Option String
  createdAt : Nat
  updatedAt : Nat
deriving DecidableEq, Repr

/-- Folder metadata record, from the `Folder` interface of file.service.ts. -/
structure Folder where
  id : String
  userId : String
  name : String
  parentId : Option String
  createdAt : Nat
  updatedAt : Nat
deriving DecidableEq, Repr

/-- Share link record, from the `ShareLink` interface of file.service.ts. -/
structure ShareLink where
  id : String
  fileId : String
  userId : String
  token : String
  expiresAt : Option Nat
  isPublic : Bool
  allowedEmails : List String
  createdAt : Nat
deriving DecidableEq, Repr

/-- Storage backend selection, from `config.storageType : 'local' | 's3' | 'r2'`.
The constructor for `'local'` is named `localDisk` because `local` is a Lean
keyword. -/
inductive StorageType where
  | localDisk
  | s3
  | r2
deriving DecidableEq, Repr

/-- Error taxonomy of the controller layer: 404 `notFound`, the 400
`Storage quota exceeded` response, a thrown storage-backend error caught as a
500 response, and the 400 missing-name response of `createFolder`. -/
inductive ApiError where
  | notFound
  | quotaExceeded
  | backendUnavailable
  | badRequest
deriving DecidableEq, Repr

/-- Decidable equality for handler results, so witnesses can be checked by
evaluation. -/
instance instDecEqExcept {ε α : Type} [DecidableEq ε] [DecidableEq α] :
    DecidableEq (Except ε α) := fun a b =>
  match a, b with
  | .ok x, .ok y =>
    if h : x = y then isTrue (by rw [h]) else isFalse (by intro hc; cases hc; exact h rfl)
  | .error x, .error y =>
    if h : x = y then isTrue (by rw [h]) else isFalse (by intro hc; cases hc; exact h rfl)
  | .ok _, .error _ => isFalse (by intro hc; cases hc)
  | .error _, .ok _ => isFalse (by intro hc; cases hc)

/-! ## FileService: namespace metadata operations (file.service.ts) -/

/-- `FileService.createFile`: pushes a fresh record onto `files`.  The fresh
uuid and the `new Date()` timestamp are passed in as `newId` and `now`. -/
def createFileMeta (files : List File) (userId name : String) (size : Nat)
    (mimeType key : String) (folderId : Option String) (newId : String)
    (now : Nat) : List File × File :=
  let nf : File := ⟨newId, userId, name, size, mimeType, key, folderId, now, now⟩
  (files ++ [nf], nf)

/-- `FileService.getFileById`: `files.find(f → f.id === fileId && f.userId === userId)`. -/
def getFileById (files : List File) (fileId userId : String) : Option File :=
  files.find? (fun f => f.id == fileId && f.userId == userId)

/-- `FileService.getFolderById`. -/
def getFolderById (folders : List Folder) (folderId userId : String) : Option Folder :=
  folders.find? (fun f => f.id == folderId && f.userId == userId)

/-- The field mutation performed by `FileService.updateFile` on the matched
record: `if (fileData.name)` applies the rename only for a truthy (defined and
nonempty) string; `if (fileData.folderId !== undefined)` applies the move for
any defined value including `null`; `updatedAt = new Date()`. -/
def applyFileUpdate (f : File) (name : Option String)
    (folderId : Option (Option String)) (now : Nat) : File :=
  let f1 := match name with
    | some n => if n = "" then f else { f with name := n }
    | none => f
  let f2 := match folderId with
    | some v => { f1 with folderId := v }
    | none => f1
  { f2 with updatedAt := now }

/-- `FileService.updateFile`: `findIndex` locates the first record with the
id (`none` result = the thrown `File not found`), and the updated copy is
written back at that index. -/
def updateFileList (files : List File) (fileId : String) (name : Option String)
    (folderId : Option (Option String)) (now : Nat) : Option (List File) :=
  match files with
  | [] => none
  | f :: fs =>
    if f.id = fileId then some (applyFileUpdate f name folderId now :: fs)
    else (updateFileList fs fileId name folderId now).map (f :: ·)

/-- The `findIndex` + `splice(index, 1)` of `FileService.deleteFile`:
removes the first record with the id, `none` when absent. -/
def removeFirstFileById (files : List File) (fileId : String) : Option (List File) :=
  match files with
  | [] => none
  | f :: fs =>
    if f.id = fileId then some fs
    else (removeFirstFileById fs fileId).map (f :: ·)

/-- `FileService.deleteFile`: throws (`none`) when the id is absent; otherwise
removes the file record and splices out every share link whose `fileId`
matches (the descending-index splice loop removes exactly those entries). -/
def deleteFileMeta (files : List File) (shareLinks : List ShareLink)
    (fileId : String) : Option (List File × List ShareLink) :=
  (removeFirstFileById files fileId).map
    (fun files' => (files', shareLinks.filter (fun l => !(l.fileId == fileId))))

/-- `FileService.createFolder`: pushes a fresh record unconditionally — the
`parentId` argument is stored as given, with no existence or ownership check. -/
def createFolderMeta (folders : List Folder) (userId name : String)
    (parentId : Option String) (newId : String) (now : Nat) : List Folder × Folder :=
  let nf : Folder := ⟨newId, userId, name, parentId, now, now⟩
  (folders ++ [nf], nf)

/-- The field mutation of `FileService.updateFolder`, with the same truthy
test on `name` and defined test on `parentId` as `applyFileUpdate`. -/
def applyFolderUpdate (f : Folder) (name : Option String)
    (parentId : Option (Option String)) (now : Nat) : Folder :=
  let f1 := match name with
    | some n => if n = "" then f else { f with name := n }
    | none => f
  let f2 := match parentId with
    | some v => { f1 with parentId := v }
    | none => f1
  { f2 with updatedAt := now }

/-- `FileService.updateFolder`: first-match lookup by id, write-back at that
index; the only failure is the thrown `Folder not found` (`none`). -/
def updateFolderList (folders : List Folder) (folderId : String)
    (name : Option String) (parentId : Option (Option String)) (now : Nat) :
    Option (List Folder) :=
  match folders with
  | [] => none
  | f :: fs =>
    if f.id = folderId then some (applyFolderUpdate f name parentId now :: fs)
    else (updateFolderList fs folderId name parentId now).map (f :: ·)

/-- `FileService.getAllSubfolderIds`: depth-first collection of descendant
folder ids.  The JS recursion has no termination guard (it diverges on a
cyclic `parentId` chain); the embedding adds a fuel argument, which callers
set high enough to be exact on every acyclic state. -/
def getAllSubfolderIds (folders : List Folder) : Nat → String → List String
  | 0, _ => []
  | fuel + 1, folderId =>
    (folders.filter (fun f => f.parentId == some folderId)).foldr
      (fun sub acc => sub.id :: (getAllSubfolderIds folders fuel sub.id ++ acc)) []

/-- `FileService.deleteFolder`: fails (`none`) unless a folder with the id and
owner exists; otherwise removes every file whose `folderId || ''` is in the
descendant closure plus the folder itself, then every folder whose id is. -/
def deleteFolderMeta (files : List File) (folders : List Folder)
    (folderId userId : String) : Option (List File × List Folder) :=
  if folders.any (fun f => f.id == folderId && f.userId == userId) then
    let allIds := getAllSubfolderIds folders (folders.length + 1) folderId ++ [folderId]
    let files' := files.filter (fun f => !(allIds.contains (f.folderId.getD "")))
    let folders' := folders.filter (fun f => !(allIds.contains f.id))
    some (files', folders')
  else none

/-- `FileService.getShareLinkByToken`: find by token, `null` when absent,
`null` when `expiresAt` is set and `new Date() > expiresAt`, otherwise the
link. -/
def getShareLinkByToken (shareLinks : List ShareLink) (token : String)
    (now : Nat) : Option ShareLink :=
  match shareLinks.find? (fun s => s.token == token) with
  | none => none
  | some s =>
    match s.expiresAt with
    | none => some s
    | some e => if now > e then none else some s

/-- `FileService.createShareLink`: pushes a record with the given expiry
(`undefined → null`), the fresh uuid token passed in as `newToken`. -/
def createShareLinkMeta (shareLinks : List ShareLink) (fileId userId : String)
    (expiresAt : Option Nat) (isPublic : Bool) (allowedEmails : List String)
    (newId newToken : String) (now : Nat) : List ShareLink × ShareLink :=
  let nl : ShareLink := ⟨newId, fileId, userId, newToken, expiresAt, isPublic, allowedEmails, now⟩
  (shareLinks ++ [nl], nl)

/-- Whether the parent chain starting at `start` reaches a folder with id
`target` within `fuel` steps, following `parentId` through the folder table. -/
def ancestorChainContains (folders : List Folder) : Nat → Option String → String → Bool
  | 0, _, _ => false
  | _, none, _ => false
  | fuel + 1, some p, target =>
    if p = target then true
    else ancestorChainContains folders fuel
      ((folders.find? (fun f => f.id == p)).bind Folder.parentId) target

/-- A folder is its own ancestor when walking `parentId` links up from it
reaches its own id again — the cycle the spec's forest invariant forbids. -/
def folderIsOwnAncestor (folders : List Folder) (folderId : String) : Bool :=
  ancestorChainContains folders (folders.length + 1)
    ((folders.find? (fun f => f.id == folderId)).bind Folder.parentId) folderId

/-! ## StorageService: path handling, backend put/get/delete, usage counter
(storage.service.ts) -/

/-- One normalization step of Node's `path.join`: empty and `.` segments are
dropped, `..` removes the last segment already accumulated (clamping at the
root of the absolute base path), any other segment is appended. -/
def normStep (acc : List String) (s : String) : List String :=
  if s = "" ∨ s = "." then acc
  else if s = ".." then acc.dropLast
  else acc ++ [s]

/-- Normalization of a segment list against an absolute base, as performed by
`path.join`. -/
def normalizeSegs (segs : List String) : List String :=
  segs.foldl normStep []

/-- Character-level worker for `splitKey`: splits on `/`, accumulating the
current segment's characters in reverse. -/
def splitKeyAux : List Char → List Char → List String
  | [], acc => [String.mk acc.reverse]
  | c :: cs, acc =>
    if c = '/' then String.mk acc.reverse :: splitKeyAux cs []
    else splitKeyAux cs (c :: acc)

/-- Splitting a storage key on `/` (the `fileKey.split('/')` of
storage.service.ts and the segmentation `path.join` performs), written by
structural recursion on the characters so that it evaluates inside the
kernel. -/
def splitKey (key : String) : List String :=
  splitKeyAux key.toList []

/-- `path.join(this.localStoragePath, fileKey)`: the storage-root segments
followed by the key's segments, normalized. -/
def resolveLocalPath (root : List String) (key : String) : List String :=
  normalizeSegs (root ++ splitKey key)

/-- Whether a resolved path stays under the storage root. -/
def underRoot (root p : List String) : Bool :=
  root.isPrefixOf p

/-- The configured local storage root `path.join(process.cwd(), 'uploads')`,
as an arbitrary fixed absolute segment list. -/
def uploadsRoot : List String := ["srv", "prostor", "uploads"]

/-- Lookup in the local filesystem model: bytes stored at a resolved path. -/
def lookupLocal (store : List (List String × List Nat)) (p : List String) :
    Option (List Nat) :=
  (store.find? (fun e => e.1 == p)).map (fun e => e.2)

/-- `fs.promises.writeFile`: creates or overwrites the path. -/
def localWrite (store : List (List String × List Nat)) (p : List String)
    (bytes : List Nat) : List (List String × List Nat) :=
  (p, bytes) :: store.filter (fun e => !(e.1 == p))

/-- `fs.promises.unlink`: removes the path, throwing ENOENT (`none`) when it
is absent. -/
def localUnlink (store : List (List String × List Nat)) (p : List String) :
    Option (List (List String × List Nat)) :=
  match lookupLocal store p with
  | some _ => some (store.filter (fun e => !(e.1 == p)))
  | none => none

/-- The fixed `10 * 1024 * 1024 * 1024` quota of
`StorageService.getUserStorageUsage`. -/
def totalBytesConst : Int := 10 * 1024 * 1024 * 1024

/-- The usage report (the float `usedPercentage` field is omitted). -/
structure StorageUsage where
  usedBytes : Int
  totalBytes : Int
deriving DecidableEq, Repr

/-- `StorageService.getUserStorageUsage`: `userStorageUsage[userId] || 0`
and the constant quota. -/
def getUserStorageUsage (usage : String → Int) (userId : String) : StorageUsage :=
  ⟨usage userId, totalBytesConst⟩

/-- `StorageService.updateUserStorageUsage`: add `sizeChange` to the user's
counter and clamp the result at zero. -/
def updateUserStorageUsage (usage : String → Int) (userId : String)
    (sizeChange : Int) : String → Int :=
  fun u => if u = userId then max 0 (usage userId + sizeChange) else usage u

/-- Combined mutable state of the backend: the three metadata tables of
file.service.ts, the usage record of storage.service.ts, and the two
physical stores (local filesystem, object-storage bucket). -/
structure SysState where
  files : List File
  folders : List Folder
  shareLinks : List ShareLink
  usage : String → Int
  localStore : List (List String × List Nat)
  objectStore : List (String × List Nat)

/-- The initial empty state of the in-memory tables. -/
def initState : SysState :=
  ⟨[], [], [], fun _ => 0, [], []⟩

/-- `StorageService.getFileSize`: for the local backend the `stat` size of
the resolved path (0 on any error, e.g. an absent file); for `s3`/`r2`
always 0, per the code's comment. -/
def storageGetFileSize (bt : StorageType) (localStore : List (List String × List Nat))
    (key : String) : Nat :=
  match bt with
  | .localDisk =>
    match lookupLocal localStore (resolveLocalPath uploadsRoot key) with
    | some bytes => bytes.length
    | none => 0
  | _ => 0

/-- `StorageService.uploadFile`: builds the key
`userId/uuid-filename`, increments the user's usage counter by the buffer
length **before** the physical put, then performs the put.  The local write
always succeeds; the object-storage `send` throws when the backend is
unreachable (`avail = false`), leaving the already-performed usage increment
in place. -/
def storageUploadFile (bt : StorageType) (avail : Bool) (s : SysState)
    (userId filename uuid : String) (buffer : List Nat) :
    SysState × Except ApiError String :=
  let key := userId ++ "/" ++ uuid ++ "-" ++ filename
  let usage' := updateUserStorageUsage s.usage userId (buffer.length : Int)
  match bt with
  | .localDisk =>
    ({ s with
       usage := usage'
       localStore := localWrite s.localStore (resolveLocalPath uploadsRoot key) buffer },
     .ok key)
  | _ =>
    if avail then
      ({ s with
         usage := usage'
         objectStore := (key, buffer) :: s.objectStore.filter (fun e => !(e.1 == key)) },
       .ok key)
    else
      ({ s with usage := usage' }, .error .backendUnavailable)

/-- `StorageService.deleteFile`: parses the owning user from the first key
segment, decrements that user's usage by `getFileSize`, then deletes from the
backend.  Local `unlink` throws when the resolved path is absent; the
object-storage delete succeeds for any key when the backend is reachable and
throws otherwise.  A throw keeps the usage decrement already performed. -/
def storageDeleteFile (bt : StorageType) (avail : Bool) (s : SysState)
    (key : String) : SysState × Except ApiError Unit :=
  let keyUser := (splitKey key).headD ""
  let size := storageGetFileSize bt s.localStore key
  let usage' := updateUserStorageUsage s.usage keyUser (-(size : Int))
  match bt with
  | .localDisk =>
    match localUnlink s.localStore (resolveLocalPath uploadsRoot key) with
    | some store' => ({ s with usage := usage', localStore := store' }, .ok ())
    | none => ({ s with usage := usage' }, .error .backendUnavailable)
  | _ =>
    if avail then
      ({ s with
         usage := usage'
         objectStore := s.objectStore.filter (fun e => !(e.1 == key)) }, .ok ())
    else
      ({ s with usage := usage' }, .error .backendUnavailable)

/-! ## FileController request flows (controllers/file.controller.ts) -/

/-- `FileController.uploadFile` (after auth and multer): quota check against
`getUserStorageUsage`, then `StorageService.uploadFile`, then
`FileService.createFile` — metadata is created only after a successful put.
With multer's memory storage `req.file.size` equals `buffer.length`. -/
def controllerUploadFile (bt : StorageType) (avail : Bool) (s : SysState)
    (userId filename mimeType : String) (buffer : List Nat)
    (folderId : Option String) (uuid newFileId : String) (now : Nat) :
    SysState × Except ApiError File :=
  let u := getUserStorageUsage s.usage userId
  if u.usedBytes + (buffer.length : Int) > u.totalBytes then
    (s, .error .quotaExceeded)
  else
    match storageUploadFile bt avail s userId filename uuid buffer with
    | (s', .error e) => (s', .error e)
    | (s', .ok key) =>
      let r := createFileMeta s'.files userId filename buffer.length mimeType key
        folderId newFileId now
      ({ s' with files := r.1 }, .ok r.2)

/-- `FileController.deleteFile`: ownership lookup, then
`StorageService.deleteFile` on the stored key, then `FileService.deleteFile`.
A throw from the storage delete is caught as a 500 **before** the metadata
removal runs, keeping the metadata record and whatever the storage layer
already mutated. -/
def controllerDeleteFile (bt : StorageType) (avail : Bool) (s : SysState)
    (userId fileId : String) : SysState × Except ApiError Unit :=
  match getFileById s.files fileId userId with
  | none => (s, .error .notFound)
  | some file =>
    match storageDeleteFile bt avail s file.key with
    | (s', .error e) => (s', .error e)
    | (s', .ok _) =>
      match deleteFileMeta s'.files s'.shareLinks fileId with
      | none => (s', .error .notFound)
      | some (files', links') =>
        ({ s' with files := files', shareLinks := links' }, .ok ())

/-- `FileController.createFolder`: rejects a falsy name with a 400, then
`FileService.createFolder` (`parentId || null` is modelled by the `Option`
argument). -/
def controllerCreateFolder (s : SysState) (userId name : String)
    (parentId : Option String) (newId : String) (now : Nat) :
    SysState × Except ApiError Folder :=
  if name = "" then (s, .error .badRequest)
  else
    let r := createFolderMeta s.folders userId name parentId newId now
    ({ s with folders := r.1 }, .ok r.2)

/-- `FileController.deleteFolder`: ownership lookup, then
`FileService.deleteFolder`.  Neither touches the storage backend, the usage
counter or the share-link table. -/
def controllerDeleteFolder (s : SysState) (userId folderId : String) :
    SysState × Except ApiError Unit :=
  match getFolderById s.folders folderId userId with
  | none => (s, .error .notFound)
  | some _ =>
    match deleteFolderMeta s.files s.folders folderId userId with
    | none => (s, .error .notFound)
    | some (files', folders') =>
      ({ s with files := files', folders := folders' }, .ok ())

/-! ## Operation sequences over the system state -/

/-- The mutating requests the quota claim quantifies over: file upload,
direct file delete, folder create, folder delete (with its cascade). -/
inductive Op where
  | upload (userId filename mimeType : String) (buffer : List Nat)
      (folderId : Option String) (uuid newFileId : String) (now : Nat)
  | delFile (userId fileId : String)
  | mkFolder (userId name : String) (parentId : Option String)
      (newId : String) (now : Nat)
  | delFolder (userId folderId : String)

/-- Run one request against the state, keeping whatever the handler mutated
whether it responded with success or an error. -/
def execOp (bt : StorageType) (avail : Bool) (s : SysState) : Op → SysState
  | .upload userId filename mimeType buffer folderId uuid newFileId now =>
    (controllerUploadFile bt avail s userId filename mimeType buffer folderId
      uuid newFileId now).1
  | .delFile userId fileId => (controllerDeleteFile bt avail s userId fileId).1
  | .mkFolder userId name parentId newId now =>
    (controllerCreateFolder s userId name parentId newId now).1
  | .delFolder userId folderId => (controllerDeleteFolder s userId folderId).1

/-- Run a request sequence from a given state. -/
def execOps (bt : StorageType) (avail : Bool) (s : SysState) (ops : List Op) :
    SysState :=
  ops.foldl (execOp bt avail) s

/-- Total `size` of an owner's live file records. -/
def sumSizes (files : List File) (userId : String) : Nat :=
  (files.filter (fun f => f.userId == userId)).foldl (fun a f => a + f.size) 0

/-- The spec's quota invariant: the owner's live metadata bytes equal the
`usedBytes` reported by `getUserStorageUsage`. -/
def quotaInvariant (s : SysState) (userId : String) : Prop :=
  (sumSizes s.files userId : Int) = (getUserStorageUsage s.usage userId).usedBytes

/-! ## Helper lemmas -/

/-- A single `path.join` normalization step never drops below the
accumulated path unless the segment is `..`. -/
lemma normStep_prefix_self (acc : List String) (s : String) (h : s ≠ "..") :
    acc <+: normStep acc s := by
  unfold normStep
  by_cases h1 : s = "" ∨ s = "."
  · rw [if_pos h1]
  · rw [if_neg h1, if_neg h]
    exact List.prefix_append acc [s]

/-- Folding normalization steps over `..`-free segments only extends the
accumulated path. -/
lemma foldl_normStep_extends :
    ∀ (l : List String) (acc : List String), (∀ s ∈ l, s ≠ "..") →
      acc <+: List.foldl normStep acc l
  | [], _, _ => List.prefix_rfl
  | s :: l, acc, h => by
    rw [List.foldl_cons]
    exact (normStep_prefix_self acc s (h s (List.mem_cons_self s l))).trans
      (foldl_normStep_extends l (normStep acc s)
        (fun t ht => h t (List.mem_cons_of_mem s ht)))

/-- Bridge from the propositional prefix order to the boolean
`List.isPrefixOf` used by `underRoot`. -/
lemma isPrefixOf_of_prefix_rel :
    ∀ {l1 l2 : List String}, l1 <+: l2 → l1.isPrefixOf l2 = true
  | [], l2, _ => by cases l2 <;> rfl
  | a :: l1, l2, h => by
    obtain ⟨t, ht⟩ := h
    subst ht
    show (a :: l1).isPrefixOf (a :: (l1 ++ t)) = true
    simp only [List.isPrefixOf, beq_self_eq_true, Bool.true_and]
    exact isPrefixOf_of_prefix_rel ⟨t, rfl⟩

/-- An element that does not match the removal predicate survives
`removeFirstFileById`. -/
lemma mem_removeFirstFileById {fileId : String} :
    ∀ {files files' : List File},
      removeFirstFileById files fileId = some files' →
      ∀ {f : File}, f ∈ files → f.id ≠ fileId → f ∈ files' := by
  intro files
  induction files with
  | nil => intro files' h; simp [removeFirstFileById] at h
  | cons g gs ih =>
    intro files' h f hf hne
    unfold removeFirstFileById at h
    by_cases hg : g.id = fileId
    · rw [if_pos hg] at h
      cases h
      rcases List.mem_cons.mp hf with rfl | hmem
      · exact absurd hg hne
      · exact hmem
    · rw [if_neg hg] at h
      obtain ⟨t, ht, rfl⟩ := Option.map_eq_some'.mp h
      rcases List.mem_cons.mp hf with rfl | hmem
      · exact List.mem_cons_self f t
      · exact List.mem_cons_of_mem g (ih ht hmem hne)

/-- Successful `updateFile` splits the table at the first record carrying the
id and rewrites exactly that record with `applyFileUpdate`. -/
lemma updateFileList_eq_some :
    ∀ (fileId : String) (name : Option String) (folderId : Option (Option String))
      (now : Nat) (files files' : List File),
      updateFileList files fileId name folderId now = some files' →
      ∃ pre f post, files = pre ++ f :: post ∧ f.id = fileId ∧
        files' = pre ++ applyFileUpdate f name folderId now :: post := by
  intro fileId name folderId now files
  induction files with
  | nil => intro files' h; simp [updateFileList] at h
  | cons g gs ih =>
    intro files' h
    unfold updateFileList at h
    by_cases hg : g.id = fileId
    · rw [if_pos hg] at h
      cases h
      exact ⟨[], g, gs, rfl, hg, rfl⟩
    · rw [if_neg hg] at h
      obtain ⟨t, ht, rfl⟩ := Option.map_eq_some'.mp h
      obtain ⟨pre, f, post, h1, h2, h3⟩ := ih t ht
      exact ⟨g :: pre, f, post, by rw [h1]; rfl, h2, by rw [h3]; rfl⟩

/-- Successful `updateFolder` splits the table at the first record carrying
the id and rewrites exactly that record with `applyFolderUpdate`. -/
lemma updateFolderList_eq_some :
    ∀ (folderId : String) (name : Option String) (parentId : Option (Option String))
      (now : Nat) (folders folders' : List Folder),
      updateFolderList folders folderId name parentId now = some folders' →
      ∃ pre f post, folders = pre ++ f :: post ∧ f.id = folderId ∧
        folders' = pre ++ applyFolderUpdate f name parentId now :: post := by
  intro folderId name parentId now folders
  induction folders with
  | nil => intro folders' h; simp [updateFolderList] at h
  | cons g gs ih =>
    intro folders' h
    unfold updateFolderList at h
    by_cases hg : g.id = folderId
    · rw [if_pos hg] at h
      cases h
      exact ⟨[], g, gs, rfl, hg, rfl⟩
    · rw [if_neg hg] at h
      obtain ⟨t, ht, rfl⟩ := Option.map_eq_some'.mp h
      obtain ⟨pre, f, post, h1, h2, h3⟩ := ih t ht
      exact ⟨g :: pre, f, post, by rw [h1]; rfl, h2, by rw [h3]; rfl⟩

/-- `applyFileUpdate` with the empty-string rename: the name survives, only
`folderId` (when given) and `updatedAt` change. -/
lemma applyFileUpdate_empty_name (f : File) (folderId : Option (Option String))
    (now : Nat) :
    applyFileUpdate f (some "") folderId now =
      { f with folderId := folderId.getD f.folderId, updatedAt := now } := by
  cases folderId <;> rfl

/-- `applyFolderUpdate` with the empty-string rename. -/
lemma applyFolderUpdate_empty_name (f : Folder) (parentId : Option (Option String))
    (now : Nat) :
    applyFolderUpdate f (some "") parentId now =
      { f with parentId := parentId.getD f.parentId, updatedAt := now } := by
  cases parentId <;> rfl

/-- `applyFileUpdate` never touches the identity, owner, size, type, key or
creation time, and always stamps `updatedAt`. -/
lemma applyFileUpdate_frame (f : File) (name : Option String)
    (folderId : Option (Option String)) (now : Nat) :
    (applyFileUpdate f name folderId now).id = f.id ∧
    (applyFileUpdate f name folderId now).userId = f.userId ∧
    (applyFileUpdate f name folderId now).size = f.size ∧
    (applyFileUpdate f name folderId now).mimeType = f.mimeType ∧
    (applyFileUpdate f name folderId now).key = f.key ∧
    (applyFileUpdate f name folderId now).createdAt = f.createdAt ∧
    (applyFileUpdate f name folderId now).updatedAt = now := by
  unfold applyFileUpdate
  rcases name with _ | n
  · cases folderId <;> simp
  · by_cases hn : n = "" <;> cases folderId <;> simp [hn]

/-- `applyFolderUpdate` never touches the identity, owner or creation time,
and always stamps `updatedAt`. -/
lemma applyFolderUpdate_frame (f : Folder) (name : Option String)
    (parentId : Option (Option String)) (now : Nat) :
    (applyFolderUpdate f name parentId now).id = f.id ∧
    (applyFolderUpdate f name parentId now).userId = f.userId ∧
    (applyFolderUpdate f name parentId now).createdAt = f.createdAt ∧
    (applyFolderUpdate f name parentId now).updatedAt = now := by
  unfold applyFolderUpdate
  rcases name with _ | n
  · cases parentId <;> simp
  · by_cases hn : n = "" <;> cases parentId <;> simp [hn]

/-- Appending one record to the table adds its size to its owner's total and
nothing to anyone else's. -/
lemma sumSizes_append (files : List File) (nf : File) (u : String) :
    sumSizes (files ++ [nf]) u =
      sumSizes files u + (if nf.userId = u then nf.size else 0) := by
  unfold sumSizes
  rw [List.filter_append, List.foldl_append]
  by_cases h : nf.userId = u
  · simp [h]
  · simp [h]

/-! ## Claim C6: createFolder parent validation -/

/-- Claim C6, refuted: with an empty folder table, creating a folder under
the nonexistent parent `ghost` does not fail NotFound — it succeeds and
stores the dangling `parentId`. -/
theorem createFolder_ghost_parent_counterexample :
    (controllerCreateFolder initState "u" "docs" (some "ghost") "fld1" 0).2 =
      Except.ok ⟨"fld1", "u", "docs", some "ghost", 0, 0⟩ ∧
    (controllerCreateFolder initState "u" "docs" (some "ghost") "fld1" 0).1.folders =
      [⟨"fld1", "u", "docs", some "ghost", 0, 0⟩] ∧
    initState.folders = [] := by
  constructor
  · rfl
  · constructor <;> rfl

/-- Claim C6 amended: `createFolder` never validates `parentId`.  Even when
no folder of the caller carries the requested parent id, the create succeeds
(the controller only rejects an empty name) and appends a folder whose
`parentId` dangles. -/
theorem createFolder_no_parent_check_amended (s : SysState)
    (userId name p newId : String) (now : Nat)
    (hname : name ≠ "")
    (habsent : ∀ f ∈ s.folders, ¬ (f.id = p ∧ f.userId = userId)) :
    (controllerCreateFolder s userId name (some p) newId now).2 =
      Except.ok ⟨newId, userId, name, some p, now, now⟩ ∧
    (controllerCreateFolder s userId name (some p) newId now).1.folders =
      s.folders ++ [⟨newId, userId, name, some p, now, now⟩] ∧
    (controllerCreateFolder s userId name (some p) newId now).1.files = s.files := by
  unfold controllerCreateFolder
  rw [if_neg hname]
  exact ⟨rfl, rfl, rfl⟩

/-- Witness instantiating `createFolder_no_parent_check_amended` on the empty
state with an absent parent id. -/
theorem createFolder_no_parent_check_amended_witness :
    (controllerCreateFolder initState "u" "pics" (some "nope") "fld2" 3).2 =
      Except.ok ⟨"fld2", "u", "pics", some "nope", 3, 3⟩ ∧
    (controllerCreateFolder initState "u" "pics" (some "nope") "fld2" 3).1.folders =
      initState.folders ++ [⟨"fld2", "u", "pics", some "nope", 3, 3⟩] ∧
    (controllerCreateFolder initState "u" "pics" (some "nope") "fld2" 3).1.files =
      initState.files :=
  createFolder_no_parent_check_amended initState "u" "pics" "nope" "fld2" 3
    (by decide) (by simp [initState])

/-! ## Claim C7: local backend path traversal -/

/-- Claim C7, refuted: the local backend sanitizes nothing — the key
`../escape` resolves to a path outside the storage root, because
`path.join` resolves the `..` segment against the root. -/
theorem path_traversal_counterexample :
    resolveLocalPath uploadsRoot "../escape" = ["srv", "prostor", "escape"] ∧
    underRoot uploadsRoot (resolveLocalPath uploadsRoot "../escape") = false := by
  constructor <;> rfl

/-- Claim C7 amended: no key is rejected or sanitized; the resolved path is
guaranteed to stay under the root only for keys none of whose segments is
`..` (given a normalized root).  A key containing a `..` segment can escape,
as the counterexample shows. -/
theorem path_traversal_amended (root : List String) (key : String)
    (hroot : normalizeSegs root = root)
    (hkey : ∀ s ∈ splitKey key, s ≠ "..") :
    underRoot root (resolveLocalPath root key) = true := by
  unfold underRoot resolveLocalPath normalizeSegs
  rw [List.foldl_append]
  have hbase : List.foldl normStep [] root = root := hroot
  rw [hbase]
  exact isPrefixOf_of_prefix_rel (foldl_normStep_extends (splitKey key) root hkey)

/-- Witness instantiating `path_traversal_amended` on the configured root and
a benign two-segment key. -/
theorem path_traversal_amended_witness :
    underRoot uploadsRoot (resolveLocalPath uploadsRoot "u1/uuid-a.txt") = true :=
  path_traversal_amended uploadsRoot "u1/uuid-a.txt" (by rfl) (by decide)

/-! ## Claim C8: idempotency of delete on an absent key -/

/-- Claim C8, refuted: on the local backend, `StorageService.deleteFile` of a
key whose resolved path holds no stored object throws (the `unlink` ENOENT),
instead of completing successfully. -/
theorem local_delete_absent_counterexample :
    (storageDeleteFile .localDisk true initState "u/absent").2 =
      Except.error ApiError.backendUnavailable := by
  rfl

/-- Claim C8 amended: only the object-storage variants tolerate deleting an
absent key — with the backend reachable, `s3`/`r2` delete succeeds for every
key — while the local variant throws whenever the resolved path is absent. -/
theorem delete_absent_key_amended :
    (∀ (s : SysState) (key : String),
       (storageDeleteFile .s3 true s key).2 = Except.ok () ∧
       (storageDeleteFile .r2 true s key).2 = Except.ok ()) ∧
    (∀ (s : SysState) (key : String),
       lookupLocal s.localStore (resolveLocalPath uploadsRoot key) = none →
       (storageDeleteFile .localDisk true s key).2 =
         Except.error ApiError.backendUnavailable) := by
  constructor
  · intro s key
    exact ⟨rfl, rfl⟩
  · intro s key h
    unfold storageDeleteFile localUnlink
    rw [h]

/-- Witness instantiating `delete_absent_key_amended` on the empty state. -/
theorem delete_absent_key_amended_witness :
    (storageDeleteFile .s3 true initState "u/gone").2 = Except.ok () ∧
    (storageDeleteFile .localDisk true initState "u/gone").2 =
      Except.error ApiError.backendUnavailable :=
  ⟨(delete_absent_key_amended.1 initState "u/gone").1,
   delete_absent_key_amended.2 initState "u/gone" (by rfl)⟩

/-! ## Claim C9: share-link resolution and lazy expiry -/

/-- Validity as the spec words it: `expiresAt == null || expiresAt > now`. -/
def specShareLinkValid (l : ShareLink) (now : Nat) : Bool :=
  match l.expiresAt with
  | none => true
  | some e => decide (now < e)

/-- Validity as the code tests it: the link is rejected only when
`now > expiresAt`, so the expiry instant itself is still accepted. -/
def codeShareLinkValid (l : ShareLink) (now : Nat) : Bool :=
  match l.expiresAt with
  | none => true
  | some e => decide (now ≤ e)

/-- Claim C9, refuted at the expiry boundary: at `now` equal to `expiresAt`
the lookup still returns the link although the spec's strict validity
predicate already calls it expired. -/
theorem share_link_expiry_counterexample :
    getShareLinkByToken [⟨"s1", "f1", "u", "tok", some 100, true, [], 0⟩] "tok" 100 =
      some ⟨"s1", "f1", "u", "tok", some 100, true, [], 0⟩ ∧
    specShareLinkValid ⟨"s1", "f1", "u", "tok", some 100, true, [], 0⟩ 100 = false := by
  constructor <;> rfl

/-- Claim C9 amended: the lookup returns a link exactly when a link with the
token exists and is valid in the non-strict sense `expiresAt == null ||
expiresAt >= now`; absent and expired tokens alike come back as the same
`none`. -/
theorem getShareLinkByToken_amended (links : List ShareLink) (token : String)
    (now : Nat) (sl : ShareLink) :
    getShareLinkByToken links token now = some sl ↔
      (links.find? (fun l => l.token == token) = some sl ∧
       codeShareLinkValid sl now = true) := by
  unfold getShareLinkByToken
  cases hfind : links.find? (fun l => l.token == token) with
  | none => simp
  | some l =>
    show (match l.expiresAt with
          | none => some l
          | some e => if now > e then none else some l) = some sl ↔ _
    cases he : l.expiresAt with
    | none =>
      constructor
      · intro h
        injection h with h'
        subst h'
        exact ⟨rfl, by unfold codeShareLinkValid; rw [he]⟩
      · rintro ⟨h1, _⟩
        exact h1
    | some e =>
      show (if now > e then none else some l) = some sl ↔ _
      by_cases hgt : now > e
      · rw [if_pos hgt]
        constructor
        · intro h
          exact absurd h (by simp)
        · rintro ⟨h1, h2⟩
          injection h1 with h1'
          subst h1'
          unfold codeShareLinkValid at h2
          rw [he] at h2
          exact absurd (of_decide_eq_true h2) (by omega)
      · rw [if_neg hgt]
        constructor
        · intro h
          injection h with h'
          subst h'
          refine ⟨rfl, ?_⟩
          unfold codeShareLinkValid
          rw [he]
          exact decide_eq_true (by omega)
        · rintro ⟨h1, _⟩
          exact h1

/-- Witness instantiating `getShareLinkByToken_amended`: a link that expires
at 100, looked up at 50, resolves. -/
theorem getShareLinkByToken_amended_witness :
    getShareLinkByToken [⟨"s1", "f1", "u", "tok", some 100, true, [], 0⟩]
      "tok" 50 = some ⟨"s1", "f1", "u", "tok", some 100, true, [], 0⟩ :=
  (getShareLinkByToken_amended
    [⟨"s1", "f1", "u", "tok", some 100, true, [], 0⟩] "tok" 50
    ⟨"s1", "f1", "u", "tok", some 100, true, [], 0⟩).mpr ⟨by rfl, by rfl⟩

/-! ## Claim C2: move-to-descendant and the forest invariant -/

/-- Claim C2, refuted: moving folder `a` under its own child `b` does not
fail InvalidHierarchy — it succeeds, mutates `parentId` and `updatedAt`, and
leaves `a` an ancestor of itself. -/
theorem move_cycle_counterexample :
    updateFolderList
      [⟨"a", "u", "A", none, 0, 0⟩, ⟨"b", "u", "B", some "a", 0, 0⟩]
      "a" none (some (some "b")) 7 =
      some [⟨"a", "u", "A", some "b", 0, 7⟩, ⟨"b", "u", "B", some "a", 0, 0⟩] ∧
    folderIsOwnAncestor
      [⟨"a", "u", "A", some "b", 0, 7⟩, ⟨"b", "u", "B", some "a", 0, 0⟩] "a" = true := by
  constructor <;> rfl

/-- Claim C2 amended: `updateFolder` performs no hierarchy validation at all.
It succeeds exactly when a folder with the requested id exists — whatever the
proposed new parent, the folder itself or one of its descendants included —
so a move can make a folder its own ancestor; the only failure is NotFound
for an absent id. -/
theorem updateFolder_no_hierarchy_check_amended :
    ∀ (folders : List Folder) (folderId : String) (name : Option String)
      (parentId : Option (Option String)) (now : Nat),
      (updateFolderList folders folderId name parentId now).isSome =
        folders.any (fun f => f.id == folderId) := by
  intro folders folderId name parentId now
  induction folders with
  | nil => rfl
  | cons f fs ih =>
    unfold updateFolderList
    by_cases h : f.id = folderId
    · simp [h]
    · have hbeq : (f.id == folderId) = false := by
        simpa using h
      rw [if_neg h, List.any_cons, hbeq, Bool.false_or, ← ih]
      cases updateFolderList fs folderId name parentId now <;> rfl

/-- Witness instantiating `updateFolder_no_hierarchy_check_amended`: even a
move of a folder under itself succeeds. -/
theorem updateFolder_no_hierarchy_check_amended_witness :
    (updateFolderList [⟨"a", "u", "A", none, 0, 0⟩] "a" none (some (some "a"))
      3).isSome = true :=
  (updateFolder_no_hierarchy_check_amended [⟨"a", "u", "A", none, 0, 0⟩] "a"
    none (some (some "a")) 3).trans (by rfl)

/-! ## Claim C3: share links surviving file removal -/

/-- Claim C3, refuted: cascading a folder delete over a folder containing a
shared file removes the file but leaves its share link in the table, so an
orphaned link whose `fileId` points at the removed file survives. -/
theorem orphan_links_counterexample :
    (controllerDeleteFolder
      ⟨[⟨"f1", "u", "a.txt", 3, "t", "u/uu1-a.txt", some "fld1", 0, 0⟩],
       [⟨"fld1", "u", "docs", none, 0, 0⟩],
       [⟨"s1", "f1", "u", "tok", none, true, [], 0⟩],
       fun _ => 0, [], []⟩ "u" "fld1").1.files = [] ∧
    (controllerDeleteFolder
      ⟨[⟨"f1", "u", "a.txt", 3, "t", "u/uu1-a.txt", some "fld1", 0, 0⟩],
       [⟨"fld1", "u", "docs", none, 0, 0⟩],
       [⟨"s1", "f1", "u", "tok", none, true, [], 0⟩],
       fun _ => 0, [], []⟩ "u" "fld1").1.shareLinks =
      [⟨"s1", "f1", "u", "tok", none, true, [], 0⟩] := by
  constructor <;> rfl

/-- Claim C3 amended: a **direct** `deleteFile` does remove every share link
of the removed file and preserves link integrity, but a folder-cascade
delete leaves the share-link table completely untouched, so links of
cascade-deleted files survive as orphans. -/
theorem share_link_cascade_amended :
    (∀ (files : List File) (links : List ShareLink) (fileId : String)
       (p : List File × List ShareLink),
       deleteFileMeta files links fileId = some p →
       (∀ l ∈ p.2, l.fileId ≠ fileId) ∧
       ((∀ l ∈ links, ∃ f ∈ files, f.id = l.fileId) →
        ∀ l ∈ p.2, ∃ f ∈ p.1, f.id = l.fileId)) ∧
    (∀ (s : SysState) (userId folderId : String),
       (controllerDeleteFolder s userId folderId).1.shareLinks = s.shareLinks) := by
  constructor
  · intro files links fileId p h
    unfold deleteFileMeta at h
    obtain ⟨t, ht, rfl⟩ := Option.map_eq_some'.mp h
    constructor
    · intro l hl
      have hmem := List.mem_filter.mp hl
      simpa using hmem.2
    · intro hno l hl
      have hmem := List.mem_filter.mp hl
      obtain ⟨f, hf, hid⟩ := hno l hmem.1
      have hlne : l.fileId ≠ fileId := by simpa using hmem.2
      exact ⟨f, mem_removeFirstFileById ht hf (by rw [hid]; exact hlne), hid⟩
  · intro s userId folderId
    unfold controllerDeleteFolder
    cases getFolderById s.folders folderId userId with
    | none => rfl
    | some f =>
      cases deleteFolderMeta s.files s.folders folderId userId with
      | none => rfl
      | some p =>
        cases p
        rfl

/-- Witness instantiating `share_link_cascade_amended` on a two-file,
two-link table, deleting file `f1`. -/
theorem share_link_cascade_amended_witness :
    (∀ l ∈ [(⟨"s2", "f2", "u", "tok2", none, true, [], 0⟩ : ShareLink)],
       l.fileId ≠ "f1") ∧
    (∀ l ∈ [(⟨"s2", "f2", "u", "tok2", none, true, [], 0⟩ : ShareLink)],
       ∃ f ∈ [(⟨"f2", "u", "b.txt", 4, "t", "u/uu2-b.txt", none, 0, 0⟩ : File)],
         f.id = l.fileId) :=
  let h := share_link_cascade_amended.1
    [⟨"f1", "u", "a.txt", 3, "t", "u/uu1-a.txt", none, 0, 0⟩,
     ⟨"f2", "u", "b.txt", 4, "t", "u/uu2-b.txt", none, 0, 0⟩]
    [⟨"s1", "f1", "u", "tok1", none, true, [], 0⟩,
     ⟨"s2", "f2", "u", "tok2", none, true, [], 0⟩]
    "f1"
    ([⟨"f2", "u", "b.txt", 4, "t", "u/uu2-b.txt", none, 0, 0⟩],
     [⟨"s2", "f2", "u", "tok2", none, true, [], 0⟩])
    (by rfl)
  ⟨h.1, h.2 (by decide)⟩

/-! ## Claim C10: empty-string rename and the update frame -/

/-- Claim C10, confirmed: updating a file or folder with the empty-string
name leaves the stored name (and every field except possibly
`folderId`/`parentId`) unchanged while still stamping `updatedAt := now`;
and any update whatsoever preserves identity, owner, size, type, key and
creation time and stamps `updatedAt`. -/
theorem update_empty_name_frame :
    (∀ (fileId : String) (folderId : Option (Option String)) (now : Nat)
       (files files' : List File),
       updateFileList files fileId (some "") folderId now = some files' →
       ∃ pre f post, files = pre ++ f :: post ∧ f.id = fileId ∧
         files' = pre ++
           { f with folderId := folderId.getD f.folderId, updatedAt := now } :: post) ∧
    (∀ (fileId : String) (name : Option String) (folderId : Option (Option String))
       (now : Nat) (files files' : List File),
       updateFileList files fileId name folderId now = some files' →
       ∃ pre f post f', files = pre ++ f :: post ∧ files' = pre ++ f' :: post ∧
         f'.id = f.id ∧ f'.userId = f.userId ∧ f'.size = f.size ∧
         f'.mimeType = f.mimeType ∧ f'.key = f.key ∧ f'.createdAt = f.createdAt ∧
         f'.updatedAt = now) ∧
    (∀ (folderId : String) (parentId : Option (Option String)) (now : Nat)
       (folders folders' : List Folder),
       updateFolderList folders folderId (some "") parentId now = some folders' →
       ∃ pre f post, folders = pre ++ f :: post ∧ f.id = folderId ∧
         folders' = pre ++
           { f with parentId := parentId.getD f.parentId, updatedAt := now } :: post) ∧
    (∀ (folderId : String) (name : Option String) (parentId : Option (Option String))
       (now : Nat) (folders folders' : List Folder),
       updateFolderList folders folderId name parentId now = some folders' →
       ∃ pre f post f', folders = pre ++ f :: post ∧ folders' = pre ++ f' :: post ∧
         f'.id = f.id ∧ f'.userId = f.userId ∧ f'.createdAt = f.createdAt ∧
         f'.updatedAt = now) := by
  refine ⟨?_, ?_, ?_, ?_⟩
  · intro fileId folderId now files files' h
    obtain ⟨pre, f, post, h1, h2, h3⟩ := updateFileList_eq_some _ _ _ _ files files' h
    exact ⟨pre, f, post, h1, h2, by rw [h3, applyFileUpdate_empty_name]⟩
  · intro fileId name folderId now files files' h
    obtain ⟨pre, f, post, h1, h2, h3⟩ := updateFileList_eq_some _ _ _ _ files files' h
    obtain ⟨e1, e2, e3, e4, e5, e6, e7⟩ := applyFileUpdate_frame f name folderId now
    exact ⟨pre, f, post, applyFileUpdate f name folderId now,
      h1, h3, e1, e2, e3, e4, e5, e6, e7⟩
  · intro folderId parentId now folders folders' h
    obtain ⟨pre, f, post, h1, h2, h3⟩ := updateFolderList_eq_some _ _ _ _ folders folders' h
    exact ⟨pre, f, post, h1, h2, by rw [h3, applyFolderUpdate_empty_name]⟩
  · intro folderId name parentId now folders folders' h
    obtain ⟨pre, f, post, h1, h2, h3⟩ := updateFolderList_eq_some _ _ _ _ folders folders' h
    obtain ⟨e1, e2, e3, e4⟩ := applyFolderUpdate_frame f name parentId now
    exact ⟨pre, f, post, applyFolderUpdate f name parentId now, h1, h3, e1, e2, e3, e4⟩

/-- Witness instantiating `update_empty_name_frame` on a one-file table:
renaming to the empty string keeps `old.txt` and stamps `updatedAt := 5`. -/
theorem update_empty_name_frame_witness :
    updateFileList [⟨"f1", "u", "old.txt", 3, "t", "k", none, 0, 0⟩] "f1"
      (some "") none 5 =
      some [⟨"f1", "u", "old.txt", 3, "t", "k", none, 0, 5⟩] ∧
    (∃ pre f post,
      [(⟨"f1", "u", "old.txt", 3, "t", "k", none, 0, 0⟩ : File)] = pre ++ f :: post ∧
      f.id = "f1" ∧
      [(⟨"f1", "u", "old.txt", 3, "t", "k", none, 0, 5⟩ : File)] = pre ++
        { f with folderId := (none : Option (Option String)).getD f.folderId,
                 updatedAt := 5 } :: post) :=
  ⟨by rfl, update_empty_name_frame.1 "f1" none 5 _ _ (by rfl)⟩

/-! ## Claim C4: failed put and the quota counter -/

/-- Claim C4, refuted: when the object-storage put fails on an upload of a
3-byte buffer from the empty state, no metadata record is created — but the
owner's `usedBytes` ends at 3, not at its pre-upload value 0, because the
counter is incremented before the put. -/
theorem failed_put_counterexample :
    (controllerUploadFile .s3 false initState "u" "a.txt" "text" [1, 2, 3]
      none "uu1" "f1" 0).1.files = initState.files ∧
    (controllerUploadFile .s3 false initState "u" "a.txt" "text" [1, 2, 3]
      none "uu1" "f1" 0).1.usage "u" = 3 ∧
    initState.usage "u" = 0 := by
  refine ⟨rfl, ?_, rfl⟩
  rfl

/-- Claim C4 amended: a failed put still aborts the upload with no metadata
record created, but the owner's `usedBytes` is left incremented by the
buffer length (clamped at zero), because `updateUserStorageUsage` runs
before the put is attempted. -/
theorem failed_put_amended (bt : StorageType) (s : SysState)
    (userId filename mimeType uuid newFileId : String) (buffer : List Nat)
    (folderId : Option String) (now : Nat)
    (hbt : bt ≠ StorageType.localDisk)
    (hquota : s.usage userId + (buffer.length : Int) ≤ totalBytesConst) :
    (controllerUploadFile bt false s userId filename mimeType buffer folderId
      uuid newFileId now).1.files = s.files ∧
    (controllerUploadFile bt false s userId filename mimeType buffer folderId
      uuid newFileId now).1.usage userId =
      max 0 (s.usage userId + (buffer.length : Int)) ∧
    (controllerUploadFile bt false s userId filename mimeType buffer folderId
      uuid newFileId now).2 = Except.error ApiError.backendUnavailable := by
  unfold controllerUploadFile getUserStorageUsage
  rw [if_neg (not_lt.mpr hquota)]
  cases bt with
  | localDisk => exact absurd rfl hbt
  | s3 =>
    refine ⟨rfl, ?_, rfl⟩
    show updateUserStorageUsage s.usage userId (buffer.length : Int) userId = _
    unfold updateUserStorageUsage
    rw [if_pos rfl]
  | r2 =>
    refine ⟨rfl, ?_, rfl⟩
    show updateUserStorageUsage s.usage userId (buffer.length : Int) userId = _
    unfold updateUserStorageUsage
    rw [if_pos rfl]

/-- Witness instantiating `failed_put_amended` on the empty state and a
2-byte upload against the unreachable object-storage backend. -/
theorem failed_put_amended_witness :
    (controllerUploadFile .s3 false initState "u" "b.txt" "text" [7, 8]
      none "uu2" "f2" 1).1.files = initState.files ∧
    (controllerUploadFile .s3 false initState "u" "b.txt" "text" [7, 8]
      none "uu2" "f2" 1).1.usage "u" =
      max 0 (initState.usage "u" + ((2 : Nat) : Int)) ∧
    (controllerUploadFile .s3 false initState "u" "b.txt" "text" [7, 8]
      none "uu2" "f2" 1).2 = Except.error ApiError.backendUnavailable :=
  failed_put_amended .s3 initState "u" "b.txt" "text" "uu2" "f2" [7, 8] none 1
    (by decide) (by decide)

/-! ## Claim C5: backend delete failure and metadata removal -/

/-- Claim C5, refuted: deleting a file whose stored object is missing from
the local backend makes the storage delete throw, and the controller then
returns the 500 **without** removing the metadata record — the record is
still in the table afterwards. -/
theorem delete_backend_failure_counterexample :
    (controllerDeleteFile .localDisk true
      ⟨[⟨"f1", "u", "a.txt", 3, "t", "u/uu1-a.txt", some "fld1", 0, 0⟩],
       [], [], fun _ => 0, [], []⟩ "u" "f1").1.files =
      [⟨"f1", "u", "a.txt", 3, "t", "u/uu1-a.txt", some "fld1", 0, 0⟩] ∧
    (controllerDeleteFile .localDisk true
      ⟨[⟨"f1", "u", "a.txt", 3, "t", "u/uu1-a.txt", some "fld1", 0, 0⟩],
       [], [], fun _ => 0, [], []⟩ "u" "f1").2 =
      Except.error ApiError.backendUnavailable := by
  constructor <;> rfl

/-- Claim C5 amended: the controller performs the storage-backend delete
first; when it throws, the request fails and the file's metadata record is
left in place — a backend delete failure does block metadata removal. -/
theorem delete_backend_failure_amended (s : SysState) (userId fileId : String)
    (file : File)
    (hfind : getFileById s.files fileId userId = some file)
    (habsent : lookupLocal s.localStore (resolveLocalPath uploadsRoot file.key) = none) :
    (controllerDeleteFile .localDisk true s userId fileId).1.files = s.files ∧
    (controllerDeleteFile .localDisk true s userId fileId).2 =
      Except.error ApiError.backendUnavailable := by
  have hdel : storageDeleteFile .localDisk true s file.key =
      ({ s with usage := updateUserStorageUsage s.usage ((splitKey file.key).headD "") (-(storageGetFileSize .localDisk s.localStore file.key : Int)) },
       Except.error ApiError.backendUnavailable) := by
    unfold storageDeleteFile localUnlink
    rw [habsent]
  unfold controllerDeleteFile
  simp only [hfind, hdel]
  constructor <;> first | rfl | trivial

/-- Witness instantiating `delete_backend_failure_amended` on a one-file
table with an empty local filesystem. -/
theorem delete_backend_failure_amended_witness :
    (controllerDeleteFile .localDisk true
      ⟨[⟨"f2", "u", "b.txt", 4, "t", "u/uu2-b.txt", none, 0, 0⟩],
       [], [], fun _ => 0, [], []⟩ "u" "f2").1.files =
      [⟨"f2", "u", "b.txt", 4, "t", "u/uu2-b.txt", none, 0, 0⟩] ∧
    (controllerDeleteFile .localDisk true
      ⟨[⟨"f2", "u", "b.txt", 4, "t", "u/uu2-b.txt", none, 0, 0⟩],
       [], [], fun _ => 0, [], []⟩ "u" "f2").2 =
      Except.error ApiError.backendUnavailable :=
  delete_backend_failure_amended
    ⟨[⟨"f2", "u", "b.txt", 4, "t", "u/uu2-b.txt", none, 0, 0⟩],
     [], [], fun _ => 0, [], []⟩ "u" "f2"
    ⟨"f2", "u", "b.txt", 4, "t", "u/uu2-b.txt", none, 0, 0⟩ (by rfl) (by rfl)

/-! ## Claim C1: the quota accounting invariant -/

/-- Uploading a record `nf` for `userId` while bumping that user's counter by
the record's size preserves the quota invariant for every observer `u`. -/
lemma quotaInvariant_upload_core (s : SysState) (u userId : String) (len : Nat)
    (nf : File) (hu : nf.userId = userId) (hs : nf.size = len)
    (hinv : quotaInvariant s u) (s' : SysState)
    (hfiles : s'.files = s.files ++ [nf])
    (husage : s'.usage = updateUserStorageUsage s.usage userId (len : Int)) :
    quotaInvariant s' u := by
  have hinv' : (sumSizes s.files u : Int) = s.usage u := hinv
  show (sumSizes s'.files u : Int) = s'.usage u
  rw [hfiles, husage, sumSizes_append]
  by_cases h : u = userId
  · subst h
    have h1 : (if nf.userId = u then nf.size else 0) = len := by
      rw [hu, if_pos rfl, hs]
    rw [h1]
    simp only [updateUserStorageUsage, if_true]
    have hnn : (0 : Int) ≤ (sumSizes s.files u : Int) := Int.natCast_nonneg _
    rw [← hinv']
    push_cast
    omega
  · have h1 : (if nf.userId = u then nf.size else 0) = 0 := by
      rw [hu]
      exact if_neg (fun hh => h hh.symm)
    rw [h1]
    simp only [updateUserStorageUsage]
    rw [if_neg h]
    simpa using hinv'

/-- Claim C1, refuted: create a folder, upload a 3-byte file into it, then
delete the folder.  The cascade removes the file's metadata without touching
the usage counter, so the owner's live-file total is 0 while
`getUserStorageUsage` still reports 3 used bytes. -/
theorem quota_invariant_counterexample :
    ¬ quotaInvariant
        (execOps .localDisk true initState
          [.mkFolder "u" "docs" none "fld1" 0,
           .upload "u" "a.txt" "text/plain" [1, 2, 3] (some "fld1") "uu1" "f1" 1,
           .delFolder "u" "fld1"]) "u" := by
  unfold quotaInvariant
  decide

/-- Claim C1 amended: the invariant is preserved by (successful or
quota-rejected) uploads, but `deleteFolder` never adjusts the usage counter
while it removes file records, so the equality fails after any cascade that
deletes files of positive total size. -/
theorem quota_invariant_amended :
    (∀ (s : SysState) (userId folderId : String),
       (controllerDeleteFolder s userId folderId).1.usage = s.usage) ∧
    (∀ (bt : StorageType) (s : SysState) (userId filename mimeType : String)
       (buffer : List Nat) (folderId : Option String) (uuid newFileId : String)
       (now : Nat) (u : String),
       quotaInvariant s u →
       quotaInvariant (controllerUploadFile bt true s userId filename mimeType
         buffer folderId uuid newFileId now).1 u) := by
  constructor
  · intro s userId folderId
    unfold controllerDeleteFolder
    cases getFolderById s.folders folderId userId with
    | none => rfl
    | some f =>
      cases deleteFolderMeta s.files s.folders folderId userId with
      | none => rfl
      | some p =>
        cases p
        rfl
  · intro bt s userId filename mimeType buffer folderId uuid newFileId now u hinv
    unfold controllerUploadFile
    by_cases hq : (getUserStorageUsage s.usage userId).usedBytes +
        (buffer.length : Int) > (getUserStorageUsage s.usage userId).totalBytes
    · rw [if_pos hq]
      exact hinv
    · rw [if_neg hq]
      cases bt with
      | localDisk =>
        exact quotaInvariant_upload_core s u userId buffer.length
          ⟨newFileId, userId, filename, buffer.length, mimeType,
           userId ++ "/" ++ uuid ++ "-" ++ filename, folderId, now, now⟩
          rfl rfl hinv _ rfl rfl
      | s3 =>
        exact quotaInvariant_upload_core s u userId buffer.length
          ⟨newFileId, userId, filename, buffer.length, mimeType,
           userId ++ "/" ++ uuid ++ "-" ++ filename, folderId, now, now⟩
          rfl rfl hinv _ rfl rfl
      | r2 =>
        exact quotaInvariant_upload_core s u userId buffer.length
          ⟨newFileId, userId, filename, buffer.length, mimeType,
           userId ++ "/" ++ uuid ++ "-" ++ filename, folderId, now, now⟩
          rfl rfl hinv _ rfl rfl

/-- Witness instantiating `quota_invariant_amended` on the empty state and a
2-byte upload: the invariant holds before and after. -/
theorem quota_invariant_amended_witness :
    quotaInvariant initState "u" ∧
    quotaInvariant (controllerUploadFile .localDisk true initState "u" "a.txt"
      "text" [1, 2] none "uu1" "f1" 0).1 "u" :=
  ⟨rfl, quota_invariant_amended.2 .localDisk initState "u" "a.txt" "text"
    [1, 2] none "uu1" "f1" 0 "u" rfl⟩

end Prostor
